import Mathlib

/-!
Shallow embedding of `src/lib/fork.c` (user-space copy-on-write fork for the
JOS exokernel) and proofs of the specification claims about it.

The three functions of the source file — `pgfault`, `duppage`, `fork` — are
translated into pure Lean functions over an explicit system state `Sys`.
Machine words are `Nat` with the C bit operations (`&`, `|`, `<<`, `>>`)
rendered as `&&&`, `|||`, `<<<`, `>>>`.  A `panic` in the C code becomes an
`Except.error` carrying the panic message.  The kernel primitives the code
calls (`sys_page_alloc`, `sys_page_map`, `sys_page_unmap`,
`sys_env_set_pgfault_upcall`, `sys_env_set_status`) are not part of the
repository's sources; they are modelled from the specification's contracts
for them, at their success behaviour.  Every kernel call made by the
embedded code is also recorded in a trace of `KCall` events so that
ordering and permission-word properties can be stated.
-/

namespace Jos

/-! ## Constants

Permission bits, fault-error bits and the fixed virtual addresses used by
`fork.c`.  `PTE_COW` is defined in `src/lib/fork.c` itself; the remaining
values are the JOS architectural constants (`inc/mmu.h`, `inc/memlayout.h`,
`inc/env.h`) referenced by the source. -/

def PGSIZE : Nat := 4096

def NPTENTRIES : Nat := 1024

def NENV : Nat := 1024

def PTE_P : Nat := 0x001

def PTE_W : Nat := 0x002

def PTE_U : Nat := 0x004

/-- `#define PTE_COW 0x800` from `src/lib/fork.c`. -/
def PTE_COW : Nat := 0x800

/-- Fault-error-word bit: the faulting access was a write. -/
def FEC_WR : Nat := 0x2

/-- Upper bound of user-mappable space (JOS `UTOP = UENVS = 0xeec00000`). -/
def UTOP : Nat := 0xeec00000

/-- Top of the user exception stack (JOS `UXSTACKTOP = UTOP`). -/
def UXSTACKTOP : Nat := 0xeec00000

/-- Scratch-page virtual address (JOS `PFTEMP = UTEMP + PTSIZE - PGSIZE`). -/
def PFTEMP : Nat := 0x7ff000

def ENV_RUNNABLE : Nat := 2

/-- `PGNUM(la)`: page number of a linear address (`la >> PTXSHIFT`). -/
def PGNUM (a : Nat) : Nat := a >>> 12

/-- `PDX(la)`: page-directory index of a linear address. -/
def PDX (a : Nat) : Nat := (a >>> 22) &&& 0x3FF

/-- `ENVX(envid)`: index of an environment id in the `envs` table. -/
def ENVX (id : Nat) : Nat := id &&& (NENV - 1)

/-- `ROUNDDOWN(a, n)`: round `a` down to the nearest multiple of `n`. -/
def ROUNDDOWN (a n : Nat) : Nat := a / n * n

/-- Modelled from the spec: the address of the fault trampoline
(`_pgfault_upcall`) that `set_pgfault_handler` installs; its concrete value
is irrelevant, it only needs to be a fixed entry point. -/
def PFENTRY : Nat := 1

/-! ## State model -/

/-- One environment's address space as the code observes it through the
read-only `uvpd`/`uvpt` windows: a page-directory word per directory index,
a page-table word per page number, and (model bookkeeping) the physical
frame each mapped page refers to. -/
structure AddrSpace where
  pde : Nat → Nat
  pte : Nat → Nat
  frameOf : Nat → Nat

/-- The system state visible to the embedded code: the address space of
every environment (keyed by envid), physical frame contents, a fresh-frame
counter, the per-environment scheduler status and page-fault upcall tables
(the latter keyed by `ENVX` index, as the `envs[]` table is), the cached
`thisenv` self-reference (modelled as an `envs[]` index), whether
`set_pgfault_handler` has run, and the current environment's id. -/
structure Sys where
  envs : Nat → AddrSpace
  mem : Nat → Nat → Nat
  nextFrame : Nat
  statusTab : Nat → Nat
  upcallTab : Nat → Nat
  thisenv : Nat
  handlerSet : Bool
  cur : Nat

/-- The fault record delivered to the user fault handler. -/
structure UTrapframe where
  utf_fault_va : Nat
  utf_err : Nat

/-- A recorded kernel-primitive call (for ordering/permission claims). -/
inductive KCall where
  | alloc (env va perm : Nat)
  | map (srcenv srcva dstenv dstva perm : Nat)
  | unmap (env va : Nat)
  | set_upcall (env entry : Nat)
  | set_status (env status : Nat)
  deriving DecidableEq, Repr

/-- Does a recorded call carry a permission word free of the
`WRITABLE`-together-with-`COW` combination?  (Calls without a permission
word trivially qualify.) -/
def KCall.permOk : KCall → Bool
  | .alloc _ _ p => p &&& PTE_W == 0 || p &&& PTE_COW == 0
  | .map _ _ _ _ p => p &&& PTE_W == 0 || p &&& PTE_COW == 0
  | _ => true

/-- Is a recorded call a `sys_env_set_status` transition? -/
def KCall.isSetStatus : KCall → Bool
  | .set_status _ _ => true
  | _ => false

/-! ## Kernel primitives, modelled from the spec -/

/-- Modelled from the spec: `page_alloc(pid, va, perm)` — "Allocates a
zeroed physical frame and maps it at `va` in `pid` with `perm`."  The
primitive is not in `src/`; it is modelled at its success behaviour: a
fresh frame is taken from `nextFrame`, zeroed, and installed at
`PGNUM va`, marking the covering page-directory entry present. -/
def sys_page_alloc (st : Sys) (e va perm : Nat) : Sys :=
  let f := st.nextFrame
  let a := st.envs e
  let a2 : AddrSpace :=
    { pde := fun i => if i = PDX va then a.pde i ||| PTE_P else a.pde i
      pte := fun p => if p = PGNUM va then perm else a.pte p
      frameOf := fun p => if p = PGNUM va then f else a.frameOf p }
  { st with
    envs := fun x => if x = e then a2 else st.envs x
    mem := fun fr off => if fr = f then 0 else st.mem fr off
    nextFrame := f + 1 }

/-- Modelled from the spec: `page_map(src_pid, src_va, dst_pid, dst_va,
perm)` — "Causes `dst_va` in `dst_pid` to refer to the same frame currently
mapped at `src_va` in `src_pid`, with permissions `perm`."  Not in `src/`;
modelled at its success behaviour.  The source mapping is not touched. -/
def sys_page_map (st : Sys) (srce srcva dste dstva perm : Nat) : Sys :=
  let src := st.envs srce
  let dst := st.envs dste
  let fr := src.frameOf (PGNUM srcva)
  let dst2 : AddrSpace :=
    { pde := fun i => if i = PDX dstva then dst.pde i ||| PTE_P else dst.pde i
      pte := fun p => if p = PGNUM dstva then perm else dst.pte p
      frameOf := fun p => if p = PGNUM dstva then fr else dst.frameOf p }
  { st with envs := fun x => if x = dste then dst2 else st.envs x }

/-- Modelled from the spec: `page_unmap(pid, va)` — "Removes the mapping at
`va` in `pid`."  Not in `src/`; modelled at its success behaviour. -/
def sys_page_unmap (st : Sys) (e va : Nat) : Sys :=
  let a := st.envs e
  let a2 : AddrSpace := { a with pte := fun p => if p = PGNUM va then 0 else a.pte p }
  { st with envs := fun x => if x = e then a2 else st.envs x }

/-- Modelled from the spec: `set_env_status(pid, status)` — "Transitions
`pid`'s scheduler state."  Not in `src/`. -/
def sys_env_set_status (st : Sys) (e s : Nat) : Sys :=
  { st with statusTab := fun x => if x = e then s else st.statusTab x }

/-- Modelled from the spec: `set_pgfault_upcall(pid, entry)` — "Installs
the user-space fault trampoline entry point for `pid`."  Not in `src/`;
the table is keyed by `ENVX` index, like the `envs[]` table it lives in. -/
def sys_env_set_pgfault_upcall (st : Sys) (e entry : Nat) : Sys :=
  { st with upcallTab := fun x => if x = ENVX e then entry else st.upcallTab x }

/-- Modelled from the spec: `memmove(PFTEMP, addr, PGSIZE)` — copies one
page of bytes between two page-aligned virtual addresses of environment
`e`, through its current mappings. -/
def memmovePage (st : Sys) (e dst src : Nat) : Sys :=
  let a := st.envs e
  let df := a.frameOf (PGNUM dst)
  let sf := a.frameOf (PGNUM src)
  { st with mem := fun fr off => if fr = df ∧ off < PGSIZE then st.mem sf off else st.mem fr off }

/-- Modelled from the spec: `set_pgfault_handler(pgfault)` — "Register the
COW fault handler as the current process's page-fault callback (idempotent
if already set)."  Library code not in `src/`; modelled as recording the
registration and installing the trampoline entry for the current
environment. -/
def set_pgfault_handler (st : Sys) : Sys :=
  { st with
    handlerSet := true
    upcallTab := fun x => if x = ENVX st.cur then PFENTRY else st.upcallTab x }

/-! ## The embedded source functions -/

/-- `pgfault(utf)` from `src/lib/fork.c`: the user-level COW page-fault
handler.  A `panic` is an `Except.error` with the panic message; on success
the new state is returned together with the trace of kernel calls made.
In the model the kernel primitives always succeed, so the
`sys_* ... < 0` panic branches of the source are never taken. -/
def pgfault (st : Sys) (utf : UTrapframe) : Except String (Sys × List KCall) :=
  let addr := utf.utf_fault_va
  let err := utf.utf_err
  let envid := st.cur
  let pte := (st.envs envid).pte (PGNUM addr)
  if err &&& FEC_WR = 0 ∨ pte &&& PTE_COW = 0 then
    Except.error "pgfault: Not a write error or address is not on a COW page"
  else
    let st1 := sys_page_alloc st envid PFTEMP (PTE_P ||| PTE_W ||| PTE_U)
    let addr2 := ROUNDDOWN addr PGSIZE
    let st2 := memmovePage st1 envid PFTEMP addr2
    let st3 := sys_page_unmap st2 envid addr2
    let st4 := sys_page_map st3 envid PFTEMP envid addr2 (PTE_P ||| PTE_W ||| PTE_U)
    Except.ok (st4,
      [KCall.alloc envid PFTEMP (PTE_P ||| PTE_W ||| PTE_U),
       KCall.unmap envid addr2,
       KCall.map envid PFTEMP envid addr2 (PTE_P ||| PTE_W ||| PTE_U)])

/-- The state after `pgfault` when it succeeds (the input state when it
panics); extraction helper for stating claims. -/
def pgfaultSt (st : Sys) (utf : UTrapframe) : Sys :=
  match pgfault st utf with
  | .ok x => x.1
  | .error _ => st

/-- The kernel-call trace of a successful `pgfault` run. -/
def pgfaultTr (st : Sys) (utf : UTrapframe) : List KCall :=
  match pgfault st utf with
  | .ok x => x.2
  | .error _ => []

/-- `duppage(envid, pn)` from `src/lib/fork.c`: map the current
environment's virtual page `pn` into `envid` at the same address under the
COW discipline, re-marking the current environment's own mapping COW when
the page was writable or COW.  Returns the new state, the trace of kernel
calls and the C return value. -/
def duppage (st : Sys) (envid pn : Nat) : Sys × List KCall × Int :=
  let pte := (st.envs st.cur).pte pn
  let cow := if pte &&& PTE_COW ≠ 0 ∨ pte &&& PTE_W ≠ 0 then PTE_COW else 0
  let addr := pn * PGSIZE
  let thisenvid := st.cur
  let st1 := sys_page_map st thisenvid addr envid addr (PTE_P ||| PTE_U ||| cow)
  if cow ≠ 0 then
    let st2 := sys_page_map st1 thisenvid addr thisenvid addr (PTE_P ||| PTE_U ||| PTE_COW)
    (st2,
     [KCall.map thisenvid addr envid addr (PTE_P ||| PTE_U ||| cow),
      KCall.map thisenvid addr thisenvid addr (PTE_P ||| PTE_U ||| PTE_COW)], 0)
  else
    (st1, [KCall.map thisenvid addr envid addr (PTE_P ||| PTE_U ||| cow)], 0)

/-- The inner loop of `fork`'s parent branch (`for (j = 0; j < NPTENTRIES;
j++)`), iterated over an explicit list of `j` values.  Besides the state
and kernel-call trace it returns the list of page numbers passed to
`duppage` (in call order). -/
def forkInner (envid i : Nat) (js : List Nat) (st : Sys) : Sys × List KCall × List Nat :=
  match js with
  | [] => (st, [], [])
  | j :: rest =>
    let pgno := i <<< 10 ||| j
    if pgno = PGNUM (UXSTACKTOP - PGSIZE) then forkInner envid i rest st
    else if (st.envs st.cur).pte pgno &&& PTE_P ≠ 0 then
      let d := duppage st envid pgno
      let r := forkInner envid i rest d.1
      (r.1, d.2.1 ++ r.2.1, pgno :: r.2.2)
    else forkInner envid i rest st

/-- The outer loop of `fork`'s parent branch (`for (i = 0; i < PDX(UTOP);
i++)`), iterated over an explicit list of `i` values. -/
def forkOuter (envid : Nat) (idxs : List Nat) (st : Sys) : Sys × List KCall × List Nat :=
  match idxs with
  | [] => (st, [], [])
  | i :: rest =>
    if (st.envs st.cur).pde i &&& PTE_P = 0 then forkOuter envid rest st
    else
      let r := forkInner envid i (List.range NPTENTRIES) st
      let r2 := forkOuter envid rest r.1
      (r2.1, r.2.1 ++ r2.2.1, r.2.2 ++ r2.2.2)

/-- `fork()` from `src/lib/fork.c`.  The return value of the external
`sys_exofork` primitive is a parameter `exoRet`: negative on kernel
failure, zero in the child's resumed run, the child's envid in the parent.
The result carries the final state, the trace of kernel calls, the list of
page numbers passed to `duppage`, and the C return value; a `panic` is an
`Except.error` with the panic message. -/
def fork (st0 : Sys) (exoRet : Int) : Except String (Sys × List KCall × List Nat × Int) :=
  let st := set_pgfault_handler st0
  if exoRet < 0 then Except.error "fork: Cannot create a child environment"
  else if exoRet = 0 then
    Except.ok ({ st with thisenv := ENVX st.cur }, [], [], 0)
  else
    let envid := exoRet.toNat
    let r := forkOuter envid (List.range (PDX UTOP)) st
    let st1 := r.1
    let st2 := sys_page_alloc st1 envid (UXSTACKTOP - PGSIZE) (PTE_P ||| PTE_W ||| PTE_U)
    let entry := st2.upcallTab st2.thisenv
    let st3 := sys_env_set_pgfault_upcall st2 envid entry
    let st4 := sys_env_set_status st3 envid ENV_RUNNABLE
    Except.ok (st4,
      r.2.1 ++
        [KCall.alloc envid (UXSTACKTOP - PGSIZE) (PTE_P ||| PTE_W ||| PTE_U),
         KCall.set_upcall envid entry,
         KCall.set_status envid ENV_RUNNABLE],
      r.2.2, exoRet)

/-- The result of `fork` when it does not panic; extraction helper. -/
def forkRes (st : Sys) (r : Int) : Sys × List KCall × List Nat × Int :=
  match fork st r with
  | .ok x => x
  | .error _ => (st, [], [], -1)

/-- Did an `Except` computation succeed? -/
def exOk {α : Type} (e : Except String α) : Bool :=
  match e with
  | .ok _ => true
  | .error _ => false

/-! ## Specification-side definitions -/

/-- The walk of one present page-directory region as the specification
describes it: among the 1024 page numbers `i << 10 | j`, those that are
not the exception-stack page and whose PTE is present. -/
def dupSpecInner (a : AddrSpace) (i : Nat) (js : List Nat) : List Nat :=
  match js with
  | [] => []
  | j :: rest =>
    let pgno := i <<< 10 ||| j
    if pgno ≠ PGNUM (UXSTACKTOP - PGSIZE) ∧ a.pte pgno &&& PTE_P ≠ 0 then
      pgno :: dupSpecInner a i rest
    else dupSpecInner a i rest

/-- The full duplication walk as the specification describes it: every
page-directory entry below `UTOP`, skipping those lacking `PRESENT`, and
within each present region every present, non-exception-stack page. -/
def dupSpec (a : AddrSpace) (idxs : List Nat) : List Nat :=
  match idxs with
  | [] => []
  | i :: rest =>
    if a.pde i &&& PTE_P ≠ 0 then
      dupSpecInner a i (List.range NPTENTRIES) ++ dupSpec a rest
    else dupSpec a rest

/-- Model bookkeeping invariant: every frame recorded in any address space
is below the fresh-frame counter, so `nextFrame` is genuinely fresh. -/
def FrameInv (st : Sys) : Prop :=
  ∀ e pn, (st.envs e).frameOf pn < st.nextFrame

/-- The presence structure of the current environment's page tables in
`st` agrees with that in `st0` (same current env, same set of present
PTEs and PDEs). -/
def Agrees (st0 st : Sys) : Prop :=
  st.cur = st0.cur ∧
  (∀ pn, ((st.envs st.cur).pte pn &&& PTE_P ≠ 0) ↔
    ((st0.envs st0.cur).pte pn &&& PTE_P ≠ 0)) ∧
  (∀ i, ((st.envs st.cur).pde i &&& PTE_P ≠ 0) ↔
    ((st0.envs st0.cur).pde i &&& PTE_P ≠ 0))

/-! ## Concrete states for witnesses -/

/-- An empty address space. -/
def asW : AddrSpace := { pde := fun _ => 0, pte := fun _ => 0, frameOf := fun _ => 0 }

/-- A minimal system state: nothing mapped, one frame in use. -/
def stW : Sys :=
  { envs := fun _ => asW, mem := fun _ _ => 0, nextFrame := 1,
    statusTab := fun _ => 0, upcallTab := fun _ => 0,
    thisenv := 0, handlerSet := false, cur := 0 }

/-- An address space with page 5 mapped copy-on-write and page 6 mapped
read-only, inside a present directory region. -/
def asC : AddrSpace :=
  { pde := fun i => if i = 0 then PTE_P else 0
    pte := fun pn =>
      if pn = 5 then PTE_P ||| PTE_U ||| PTE_COW
      else if pn = 6 then PTE_P ||| PTE_U
      else 0
    frameOf := fun _ => 0 }

/-- A system state whose current environment (id 0) owns `asC`. -/
def stC : Sys :=
  { envs := fun e => if e = 0 then asC else asW, mem := fun _ _ => 0, nextFrame := 1,
    statusTab := fun _ => 0, upcallTab := fun _ => 0,
    thisenv := 0, handlerSet := false, cur := 0 }

/-- A write fault on the COW page 5 (at a non-page-aligned address). -/
def utfC : UTrapframe := { utf_fault_va := 5 * PGSIZE + 7, utf_err := FEC_WR }

/-- A read fault on the COW page 5. -/
def utfR : UTrapframe := { utf_fault_va := 5 * PGSIZE + 7, utf_err := 0 }

/-! ## Arithmetic helper lemmas -/

theorem PGNUM_div (a : Nat) : PGNUM a = a / PGSIZE := by
  simp [PGNUM, PGSIZE, Nat.shiftRight_eq_div_pow]

theorem PGNUM_rounddown (a : Nat) : PGNUM (ROUNDDOWN a PGSIZE) = PGNUM a := by
  simp only [PGNUM_div, ROUNDDOWN]
  exact Nat.mul_div_cancel (a / PGSIZE) (by norm_num [PGSIZE])

theorem PGNUM_mul (pn : Nat) : PGNUM (pn * PGSIZE) = pn := by
  simp only [PGNUM_div]
  exact Nat.mul_div_cancel pn (by norm_num [PGSIZE])

theorem or_P_present (v : Nat) : (v ||| PTE_P) &&& PTE_P ≠ 0 := by
  have h : (v ||| 1).testBit 0 = true := by simp
  rw [Nat.testBit_zero] at h
  have h2 : (v ||| 1) % 2 = 1 := of_decide_eq_true h
  simp only [PTE_P, Nat.and_one_is_mod, h2]
  decide

/-! ## C1–C3: the COW fault handler -/

/-- C1: `pgfault` resolves a fault iff the error word indicates a write and
the PTE of the page containing the faulting address has the COW bit set;
whenever either condition fails it panics with the source's diagnostic
instead of remapping anything. -/
theorem C1_pgfault_resolves_iff (st : Sys) (utf : UTrapframe) :
    ((utf.utf_err &&& FEC_WR ≠ 0 ∧
        (st.envs st.cur).pte (PGNUM utf.utf_fault_va) &&& PTE_COW ≠ 0) →
      exOk (pgfault st utf) = true) ∧
    (¬(utf.utf_err &&& FEC_WR ≠ 0 ∧
        (st.envs st.cur).pte (PGNUM utf.utf_fault_va) &&& PTE_COW ≠ 0) →
      pgfault st utf =
        Except.error "pgfault: Not a write error or address is not on a COW page") := by
  constructor
  · intro h
    have hne : ¬(utf.utf_err &&& FEC_WR = 0 ∨
        (st.envs st.cur).pte (PGNUM utf.utf_fault_va) &&& PTE_COW = 0) := by
      push_neg
      exact h
    simp only [pgfault, if_neg hne, exOk]
  · intro h
    have hor : utf.utf_err &&& FEC_WR = 0 ∨
        (st.envs st.cur).pte (PGNUM utf.utf_fault_va) &&& PTE_COW = 0 := by
      by_contra hc
      push_neg at hc
      exact h ⟨hc.1, hc.2⟩
    simp only [pgfault, if_pos hor]

/-- C1 witness: on a concrete COW write fault the handler succeeds, and on
a concrete read fault it panics with the diagnostic. -/
theorem C1_witness :
    exOk (pgfault stC utfC) = true ∧
    pgfault stC utfR =
      Except.error "pgfault: Not a write error or address is not on a COW page" :=
  ⟨(C1_pgfault_resolves_iff stC utfC).1 (by decide),
   (C1_pgfault_resolves_iff stC utfR).2 (by decide)⟩

/-- C2: after a successful `pgfault` on a write fault to a COW page, the
page containing the faulting address is mapped exactly
`PTE_P | PTE_W | PTE_U` onto the freshly allocated frame, that frame's
`PGSIZE` bytes equal the bytes of the previously mapped page, and no page
of the current address space other than the fault page and the scratch
slot is modified. -/
theorem C2_pgfault_private_copy (st : Sys) (utf : UTrapframe)
    (hw : utf.utf_err &&& FEC_WR ≠ 0)
    (hc : (st.envs st.cur).pte (PGNUM utf.utf_fault_va) &&& PTE_COW ≠ 0)
    (hne : PGNUM utf.utf_fault_va ≠ PGNUM PFTEMP)
    (hinv : FrameInv st) :
    exOk (pgfault st utf) = true ∧
    ((pgfaultSt st utf).envs st.cur).pte (PGNUM utf.utf_fault_va) =
      (PTE_P ||| PTE_W ||| PTE_U) ∧
    ((pgfaultSt st utf).envs st.cur).frameOf (PGNUM utf.utf_fault_va) = st.nextFrame ∧
    (∀ e pn, (st.envs e).frameOf pn ≠ st.nextFrame) ∧
    (∀ off, off < PGSIZE →
      (pgfaultSt st utf).mem st.nextFrame off =
        st.mem ((st.envs st.cur).frameOf (PGNUM utf.utf_fault_va)) off) ∧
    (∀ pn, pn ≠ PGNUM utf.utf_fault_va → pn ≠ PGNUM PFTEMP →
      ((pgfaultSt st utf).envs st.cur).pte pn = (st.envs st.cur).pte pn ∧
      ((pgfaultSt st utf).envs st.cur).frameOf pn = (st.envs st.cur).frameOf pn) := by
  have hcond : ¬(utf.utf_err &&& FEC_WR = 0 ∨
      (st.envs st.cur).pte (PGNUM utf.utf_fault_va) &&& PTE_COW = 0) := by
    push_neg
    exact ⟨hw, hc⟩
  have hrd : PGNUM (ROUNDDOWN utf.utf_fault_va PGSIZE) = PGNUM utf.utf_fault_va :=
    PGNUM_rounddown _
  have hfr : (st.envs st.cur).frameOf (PGNUM utf.utf_fault_va) ≠ st.nextFrame :=
    Nat.ne_of_lt (hinv _ _)
  refine ⟨?_, ?_, ?_, fun e pn => Nat.ne_of_lt (hinv e pn), ?_, ?_⟩
  · simp only [pgfault, if_neg hcond, exOk]
  · simp [pgfaultSt, pgfault, if_neg hcond, sys_page_alloc, memmovePage,
      sys_page_unmap, sys_page_map, hrd, hne]
  · simp [pgfaultSt, pgfault, if_neg hcond, sys_page_alloc, memmovePage,
      sys_page_unmap, sys_page_map, hrd, hne]
  · intro off hoff
    simp [pgfaultSt, pgfault, if_neg hcond, sys_page_alloc, memmovePage,
      sys_page_unmap, sys_page_map, hrd, hne, hoff, hfr]
  · intro pn h1 h2
    simp [pgfaultSt, pgfault, if_neg hcond, sys_page_alloc, memmovePage,
      sys_page_unmap, sys_page_map, hrd, h1, h2]

/-- C2 witness: the theorem instantiated on a concrete COW write fault. -/
theorem C2_witness :
    exOk (pgfault stC utfC) = true ∧
    ((pgfaultSt stC utfC).envs stC.cur).pte (PGNUM utfC.utf_fault_va) =
      (PTE_P ||| PTE_W ||| PTE_U) ∧
    ((pgfaultSt stC utfC).envs stC.cur).frameOf (PGNUM utfC.utf_fault_va) =
      stC.nextFrame ∧
    (∀ e pn, (stC.envs e).frameOf pn ≠ stC.nextFrame) ∧
    (∀ off, off < PGSIZE →
      (pgfaultSt stC utfC).mem stC.nextFrame off =
        stC.mem ((stC.envs stC.cur).frameOf (PGNUM utfC.utf_fault_va)) off) ∧
    (∀ pn, pn ≠ PGNUM utfC.utf_fault_va → pn ≠ PGNUM PFTEMP →
      ((pgfaultSt stC utfC).envs stC.cur).pte pn = (stC.envs stC.cur).pte pn ∧
      ((pgfaultSt stC utfC).envs stC.cur).frameOf pn =
        (stC.envs stC.cur).frameOf pn) :=
  C2_pgfault_private_copy stC utfC (by decide) (by decide) (by decide)
    (fun e pn => by by_cases h : e = 0 <;> simp [stC, asC, asW, h])

/-- C3 counterexample: on a concrete successful COW-fault run the scratch
slot `PFTEMP` is still mapped (`PTE_P | PTE_W | PTE_U`) when the handler
exits, so the final map-to-fault-address step does not consume it. -/
theorem C3_counterexample :
    exOk (pgfault stC utfC) = true ∧
    ((pgfaultSt stC utfC).envs stC.cur).pte (PGNUM PFTEMP) =
      (PTE_P ||| PTE_W ||| PTE_U) := by
  constructor
  · decide
  · decide

/-- C3 amended: for every successful run of the COW fault handler, the
scratch slot `PFTEMP` remains mapped `PTE_P | PTE_W | PTE_U` onto the
freshly allocated frame (the one now also mapped at the fault address)
when the handler exits; the final map-to-fault-address step does not
unmap it. -/
theorem C3_amended_scratch_left_mapped (st : Sys) (utf : UTrapframe)
    (hw : utf.utf_err &&& FEC_WR ≠ 0)
    (hc : (st.envs st.cur).pte (PGNUM utf.utf_fault_va) &&& PTE_COW ≠ 0)
    (hne : PGNUM utf.utf_fault_va ≠ PGNUM PFTEMP) :
    exOk (pgfault st utf) = true ∧
    ((pgfaultSt st utf).envs st.cur).pte (PGNUM PFTEMP) =
      (PTE_P ||| PTE_W ||| PTE_U) ∧
    ((pgfaultSt st utf).envs st.cur).frameOf (PGNUM PFTEMP) = st.nextFrame := by
  have hcond : ¬(utf.utf_err &&& FEC_WR = 0 ∨
      (st.envs st.cur).pte (PGNUM utf.utf_fault_va) &&& PTE_COW = 0) := by
    push_neg
    exact ⟨hw, hc⟩
  have hrd : PGNUM (ROUNDDOWN utf.utf_fault_va PGSIZE) = PGNUM utf.utf_fault_va :=
    PGNUM_rounddown _
  have hne2 : PGNUM PFTEMP ≠ PGNUM utf.utf_fault_va := fun h => hne h.symm
  refine ⟨?_, ?_, ?_⟩
  · simp only [pgfault, if_neg hcond, exOk]
  · simp [pgfaultSt, pgfault, if_neg hcond, sys_page_alloc, memmovePage,
      sys_page_unmap, sys_page_map, hrd, hne2]
  · simp [pgfaultSt, pgfault, if_neg hcond, sys_page_alloc, memmovePage,
      sys_page_unmap, sys_page_map, hrd, hne2]

/-- C3 amended witness: the amended theorem on a concrete COW write
fault. -/
theorem C3_amended_witness :
    exOk (pgfault stC utfC) = true ∧
    ((pgfaultSt stC utfC).envs stC.cur).pte (PGNUM PFTEMP) =
      (PTE_P ||| PTE_W ||| PTE_U) ∧
    ((pgfaultSt stC utfC).envs stC.cur).frameOf (PGNUM PFTEMP) = stC.nextFrame :=
  C3_amended_scratch_left_mapped stC utfC (by decide) (by decide) (by decide)

/-! ## C4, C10: the page duplicator -/

/-- `duppage` unfolded in the writable-or-COW case. -/
theorem duppage_pos_eq (st : Sys) (envid pn : Nat)
    (hcow : (st.envs st.cur).pte pn &&& PTE_COW ≠ 0 ∨
      (st.envs st.cur).pte pn &&& PTE_W ≠ 0) :
    duppage st envid pn =
      (sys_page_map
         (sys_page_map st st.cur (pn * PGSIZE) envid (pn * PGSIZE)
           (PTE_P ||| PTE_U ||| PTE_COW))
         st.cur (pn * PGSIZE) st.cur (pn * PGSIZE) (PTE_P ||| PTE_U ||| PTE_COW),
       [KCall.map st.cur (pn * PGSIZE) envid (pn * PGSIZE)
          (PTE_P ||| PTE_U ||| PTE_COW),
        KCall.map st.cur (pn * PGSIZE) st.cur (pn * PGSIZE)
          (PTE_P ||| PTE_U ||| PTE_COW)],
       0) := by
  simp only [duppage]
  rw [if_pos hcow, if_pos (show (PTE_COW : Nat) ≠ 0 by decide)]

/-- `duppage` unfolded in the read-only case. -/
theorem duppage_neg_eq (st : Sys) (envid pn : Nat)
    (hcow : ¬((st.envs st.cur).pte pn &&& PTE_COW ≠ 0 ∨
      (st.envs st.cur).pte pn &&& PTE_W ≠ 0)) :
    duppage st envid pn =
      (sys_page_map st st.cur (pn * PGSIZE) envid (pn * PGSIZE)
         (PTE_P ||| PTE_U ||| 0),
       [KCall.map st.cur (pn * PGSIZE) envid (pn * PGSIZE) (PTE_P ||| PTE_U ||| 0)],
       0) := by
  simp only [duppage]
  rw [if_neg hcow, if_neg (show ¬((0 : Nat) ≠ 0) by decide)]

/-- C4: when the parent's PTE for `pn` is present, `duppage(envid, pn)`
installs the child's mapping as `PTE_P | PTE_U | PTE_COW` and re-installs
the parent's own mapping as `PTE_P | PTE_U | PTE_COW` whenever the PTE has
`PTE_W` or `PTE_COW` set (the re-install happens even when the entry was
already COW); when the PTE is present but has neither bit, the child's
mapping is installed as `PTE_P | PTE_U` and the parent's address space is
left unchanged. -/
theorem C4_duppage_policy (st : Sys) (envid pn : Nat) (hne : envid ≠ st.cur)
    (hp : (st.envs st.cur).pte pn &&& PTE_P ≠ 0) :
    (((st.envs st.cur).pte pn &&& PTE_W ≠ 0 ∨
        (st.envs st.cur).pte pn &&& PTE_COW ≠ 0) →
      ((duppage st envid pn).1.envs envid).pte pn = (PTE_P ||| PTE_U ||| PTE_COW) ∧
      ((duppage st envid pn).1.envs st.cur).pte pn = (PTE_P ||| PTE_U ||| PTE_COW)) ∧
    (((st.envs st.cur).pte pn &&& PTE_W = 0 ∧
        (st.envs st.cur).pte pn &&& PTE_COW = 0) →
      ((duppage st envid pn).1.envs envid).pte pn = (PTE_P ||| PTE_U) ∧
      (duppage st envid pn).1.envs st.cur = st.envs st.cur) := by
  have hcur : st.cur ≠ envid := fun h => hne h.symm
  constructor
  · intro h
    have hcow : (st.envs st.cur).pte pn &&& PTE_COW ≠ 0 ∨
        (st.envs st.cur).pte pn &&& PTE_W ≠ 0 := h.symm
    rw [duppage_pos_eq st envid pn hcow]
    constructor
    · simp [sys_page_map, PGNUM_mul, hne, hcur]
    · simp [sys_page_map, PGNUM_mul, hne, hcur]
  · intro h
    have hcow : ¬((st.envs st.cur).pte pn &&& PTE_COW ≠ 0 ∨
        (st.envs st.cur).pte pn &&& PTE_W ≠ 0) := by
      push_neg
      exact ⟨h.2, h.1⟩
    rw [duppage_neg_eq st envid pn hcow]
    constructor
    · simp [sys_page_map, PGNUM_mul, hne, hcur]
    · simp [sys_page_map, PGNUM_mul, hne, hcur]

/-- C4 witness: the theorem on a concrete state, with the COW case
exercised on a page that is already COW (page 5) — showing the parent's
entry is rewritten even then. -/
theorem C4_witness :
    (((stC.envs stC.cur).pte 5 &&& PTE_W ≠ 0 ∨
        (stC.envs stC.cur).pte 5 &&& PTE_COW ≠ 0) →
      ((duppage stC 3 5).1.envs 3).pte 5 = (PTE_P ||| PTE_U ||| PTE_COW) ∧
      ((duppage stC 3 5).1.envs stC.cur).pte 5 = (PTE_P ||| PTE_U ||| PTE_COW)) ∧
    (((stC.envs stC.cur).pte 5 &&& PTE_W = 0 ∧
        (stC.envs stC.cur).pte 5 &&& PTE_COW = 0) →
      ((duppage stC 3 5).1.envs 3).pte 5 = (PTE_P ||| PTE_U) ∧
      (duppage stC 3 5).1.envs stC.cur = stC.envs stC.cur) :=
  C4_duppage_policy stC 3 5 (by decide) (by decide)

/-- C10: every `duppage` call that returns, returns 0 (the documented
negative-error return is never taken because kernel map failures panic);
the child's mapping is installed at the identical virtual address
`pn * PGSIZE` (the recorded map call has equal source and destination
addresses) and refers to the parent's physical frame for that page. -/
theorem C10_duppage_returns_zero (st : Sys) (envid pn : Nat)
    (hne : envid ≠ st.cur) :
    (duppage st envid pn).2.2 = 0 ∧
    ((duppage st envid pn).1.envs envid).pte pn &&& PTE_P ≠ 0 ∧
    ((duppage st envid pn).1.envs envid).frameOf pn =
      (st.envs st.cur).frameOf pn ∧
    (∃ p rest, (duppage st envid pn).2.1 =
      KCall.map st.cur (pn * PGSIZE) envid (pn * PGSIZE) p :: rest) := by
  have hcur : st.cur ≠ envid := fun h => hne h.symm
  by_cases hcow : (st.envs st.cur).pte pn &&& PTE_COW ≠ 0 ∨
      (st.envs st.cur).pte pn &&& PTE_W ≠ 0
  · rw [duppage_pos_eq st envid pn hcow]
    refine ⟨rfl, ?_, ?_, ?_⟩
    · simp [sys_page_map, PGNUM_mul, hne, hcur]
      decide
    · simp [sys_page_map, PGNUM_mul, hne, hcur]
    · exact ⟨PTE_P ||| PTE_U ||| PTE_COW, _, rfl⟩
  · rw [duppage_neg_eq st envid pn hcow]
    refine ⟨rfl, ?_, ?_, ?_⟩
    · simp [sys_page_map, PGNUM_mul, hne, hcur]
      decide
    · simp [sys_page_map, PGNUM_mul, hne, hcur]
    · exact ⟨PTE_P ||| PTE_U ||| 0, _, rfl⟩

/-- C10 witness: the theorem on a concrete read-only page. -/
theorem C10_witness :
    (duppage stC 3 6).2.2 = 0 ∧
    ((duppage stC 3 6).1.envs 3).pte 6 &&& PTE_P ≠ 0 ∧
    ((duppage stC 3 6).1.envs 3).frameOf 6 = (stC.envs stC.cur).frameOf 6 ∧
    (∃ p rest, (duppage stC 3 6).2.1 =
      KCall.map stC.cur (6 * PGSIZE) 3 (6 * PGSIZE) p :: rest) :=
  C10_duppage_returns_zero stC 3 6 (by decide)

/-! ## C6, C9: fork's return values and child branch -/

/-- C9: in the child branch of `fork` (exo-fork return value zero), the
only mutation relative to the state after handler registration is the
refresh of the cached self-reference `thisenv` by the child's own
identifier (`envs[ENVX(sys_getenvid())]`); no kernel call is made, no page
number is duplicated, and the return value is zero. -/
theorem C9_child_branch (st : Sys) :
    fork st 0 =
      Except.ok ({ set_pgfault_handler st with thisenv := ENVX st.cur }, [], [], 0) :=
  rfl

/-- C6 counterexample: when the exo-fork primitive fails (returns `-1`),
`fork` does not return a negative value — it panics (no value is returned
at all). -/
theorem C6_counterexample :
    fork stW (-1) = Except.error "fork: Cannot create a child environment" ∧
    exOk (fork stW (-1)) = false :=
  ⟨rfl, rfl⟩

/-- C6 amended: `fork` returns the child's environment identifier to the
parent and zero inside the child; on exo-fork failure it panics with the
source's diagnostic instead of returning a negative value. -/
theorem C6_amended_returns (st : Sys) (r : Int) :
    (r < 0 → fork st r = Except.error "fork: Cannot create a child environment") ∧
    (r = 0 → exOk (fork st r) = true ∧ (forkRes st r).2.2.2 = 0) ∧
    (0 < r → exOk (fork st r) = true ∧ (forkRes st r).2.2.2 = r) := by
  refine ⟨?_, ?_, ?_⟩
  · intro h
    simp [fork, if_pos h]
  · intro h
    subst h
    exact ⟨rfl, rfl⟩
  · intro h
    have h1 : ¬r < 0 := by omega
    have h2 : ¬r = 0 := by omega
    constructor
    · simp [fork, if_neg h1, if_neg h2, exOk]
    · simp [forkRes, fork, if_neg h1, if_neg h2]

/-- C6 amended witness: the three return conventions on concrete inputs. -/
theorem C6_amended_witness :
    fork stW (-2) = Except.error "fork: Cannot create a child environment" ∧
    (exOk (fork stW 0) = true ∧ (forkRes stW 0).2.2.2 = 0) ∧
    (exOk (fork stW 7) = true ∧ (forkRes stW 7).2.2.2 = 7) :=
  ⟨(C6_amended_returns stW (-2)).1 (by decide),
   (C6_amended_returns stW 0).2.1 rfl,
   (C6_amended_returns stW 7).2.2 (by decide)⟩

/-! ## Trace lemmas for C7 and C8 -/

/-- Every kernel call recorded by `duppage` is a map call whose permission
word is free of `WRITABLE`-with-`COW`, and is not a status transition. -/
theorem duppage_trace_ok (st : Sys) (envid pn : Nat) (c : KCall)
    (hc : c ∈ (duppage st envid pn).2.1) :
    c.permOk = true ∧ c.isSetStatus = false := by
  by_cases hcow : (st.envs st.cur).pte pn &&& PTE_COW ≠ 0 ∨
      (st.envs st.cur).pte pn &&& PTE_W ≠ 0
  · rw [duppage_pos_eq st envid pn hcow] at hc
    simp only [List.mem_cons, List.mem_singleton, List.not_mem_nil, or_false] at hc
    rcases hc with h | h <;> subst h <;> exact ⟨rfl, rfl⟩
  · rw [duppage_neg_eq st envid pn hcow] at hc
    simp only [List.mem_singleton] at hc
    subst hc
    exact ⟨rfl, rfl⟩

/-- Every kernel call recorded by the inner duplication loop is a benign
map call (permission word without `WRITABLE`-with-`COW`, not a status
transition). -/
theorem forkInner_trace_ok (envid i : Nat) (js : List Nat) :
    ∀ st c, c ∈ (forkInner envid i js st).2.1 →
      c.permOk = true ∧ c.isSetStatus = false := by
  induction js with
  | nil =>
    intro st c hc
    simp [forkInner] at hc
  | cons j rest ih =>
    intro st c hc
    simp only [forkInner] at hc
    by_cases h1 : i <<< 10 ||| j = PGNUM (UXSTACKTOP - PGSIZE)
    · rw [if_pos h1] at hc
      exact ih st c hc
    · rw [if_neg h1] at hc
      by_cases h2 : (st.envs st.cur).pte (i <<< 10 ||| j) &&& PTE_P ≠ 0
      · rw [if_pos h2] at hc
        simp only [List.mem_append] at hc
        rcases hc with h | h
        · exact duppage_trace_ok _ _ _ _ h
        · exact ih _ c h
      · rw [if_neg h2] at hc
        exact ih st c hc

/-- Every kernel call recorded by the duplication walk is a benign map
call. -/
theorem forkOuter_trace_ok (envid : Nat) (idxs : List Nat) :
    ∀ st c, c ∈ (forkOuter envid idxs st).2.1 →
      c.permOk = true ∧ c.isSetStatus = false := by
  induction idxs with
  | nil =>
    intro st c hc
    simp [forkOuter] at hc
  | cons i rest ih =>
    intro st c hc
    simp only [forkOuter] at hc
    by_cases h1 : (st.envs st.cur).pde i &&& PTE_P = 0
    · rw [if_pos h1] at hc
      exact ih st c hc
    · rw [if_neg h1] at hc
      simp only [List.mem_append] at hc
      rcases hc with h | h
      · exact forkInner_trace_ok envid i _ st c h
      · exact ih _ c h

/-! ## C7, C8 -/

/-- C7: every permission word passed to a kernel mapping primitive by this
code — `page_alloc` and `page_map` calls recorded in the traces of
`pgfault`, `duppage` and `fork` — never contains `PTE_W` and `PTE_COW`
together. -/
theorem C7_perm_exclusive :
    (∀ st utf c, c ∈ pgfaultTr st utf → c.permOk = true) ∧
    (∀ st envid pn c, c ∈ (duppage st envid pn).2.1 → c.permOk = true) ∧
    (∀ st r c, c ∈ (forkRes st r).2.1 → c.permOk = true) := by
  refine ⟨?_, ?_, ?_⟩
  · intro st utf c hc
    by_cases hcond : utf.utf_err &&& FEC_WR = 0 ∨
        (st.envs st.cur).pte (PGNUM utf.utf_fault_va) &&& PTE_COW = 0
    · simp [pgfaultTr, pgfault, if_pos hcond] at hc
    · simp only [pgfaultTr, pgfault, if_neg hcond] at hc
      simp only [List.mem_cons, List.mem_singleton, List.not_mem_nil, or_false] at hc
      rcases hc with h | h | h <;> subst h <;> rfl
  · intro st envid pn c hc
    exact (duppage_trace_ok st envid pn c hc).1
  · intro st r c hc
    by_cases h1 : r < 0
    · simp [forkRes, fork, if_pos h1] at hc
    · by_cases h2 : r = 0
      · subst h2
        simp [forkRes, fork] at hc
      · simp only [forkRes, fork, if_neg h1, if_neg h2] at hc
        simp only [List.mem_append, List.mem_cons, List.mem_singleton,
          List.not_mem_nil, or_false] at hc
        rcases hc with h | h | h | h
        · exact (forkOuter_trace_ok _ _ _ _ h).1
        · subst h; rfl
        · subst h; rfl
        · subst h; rfl

/-- C7 witness: a permission word recorded by a concrete `duppage` run
satisfies the exclusivity check. -/
theorem C7_witness :
    (KCall.map stC.cur (5 * PGSIZE) 3 (5 * PGSIZE)
      (PTE_P ||| PTE_U ||| PTE_COW)).permOk = true :=
  C7_perm_exclusive.2.1 stC 3 5 _ (by decide)

/-- C8: in `fork`'s parent branch the kernel-call trace ends with the
child's exception-stack allocation, the child's fault-upcall installation
and the `ENV_RUNNABLE` status transition, in that order, and no status
transition occurs earlier — so the child's stack and upcall are installed
strictly before it becomes runnable. -/
theorem C8_runnable_last (st : Sys) (r : Int) (h0 : 0 < r) :
    ∃ pre entry,
      (forkRes st r).2.1 = pre ++
        [KCall.alloc r.toNat (UXSTACKTOP - PGSIZE) (PTE_P ||| PTE_W ||| PTE_U),
         KCall.set_upcall r.toNat entry,
         KCall.set_status r.toNat ENV_RUNNABLE] ∧
      (∀ c ∈ pre, c.isSetStatus = false) := by
  have h1 : ¬r < 0 := by omega
  have h2 : ¬r = 0 := by omega
  refine ⟨(forkOuter r.toNat (List.range (PDX UTOP)) (set_pgfault_handler st)).2.1,
    (sys_page_alloc (forkOuter r.toNat (List.range (PDX UTOP))
        (set_pgfault_handler st)).1 r.toNat (UXSTACKTOP - PGSIZE)
        (PTE_P ||| PTE_W ||| PTE_U)).upcallTab
      (sys_page_alloc (forkOuter r.toNat (List.range (PDX UTOP))
        (set_pgfault_handler st)).1 r.toNat (UXSTACKTOP - PGSIZE)
        (PTE_P ||| PTE_W ||| PTE_U)).thisenv, ?_, ?_⟩
  · simp only [forkRes, fork, if_neg h1, if_neg h2]
  · intro c hc
    exact (forkOuter_trace_ok _ _ _ _ hc).2

/-- C8 witness: the decomposition on a concrete parent run. -/
theorem C8_witness :
    (0 : Int) < 7 ∧
    ∃ pre entry,
      (forkRes stW 7).2.1 = pre ++
        [KCall.alloc (7 : Int).toNat (UXSTACKTOP - PGSIZE)
           (PTE_P ||| PTE_W ||| PTE_U),
         KCall.set_upcall (7 : Int).toNat entry,
         KCall.set_status (7 : Int).toNat ENV_RUNNABLE] ∧
      (∀ c ∈ pre, c.isSetStatus = false) :=
  ⟨by decide, C8_runnable_last stW 7 (by decide)⟩

/-! ## C5: the duplication walk -/

theorem pg_or_eq (i j : Nat) (hj : j < NPTENTRIES) : i <<< 10 ||| j = 1024 * i + j := by
  have h2 : j < 2 ^ 10 := by
    have : NPTENTRIES = 2 ^ 10 := by norm_num [NPTENTRIES]
    omega
  rw [Nat.shiftLeft_eq, show i * 2 ^ 10 = 2 ^ 10 * i from Nat.mul_comm _ _,
    ← Nat.mul_add_lt_is_or h2 i]

theorem PDX_pg (i j : Nat) (hi : i < NPTENTRIES) (hj : j < NPTENTRIES) :
    PDX ((i <<< 10 ||| j) * PGSIZE) = i := by
  rw [pg_or_eq i j hj]
  simp only [PDX, PGSIZE, Nat.shiftRight_eq_div_pow]
  have h1 : (1024 * i + j) * 4096 / 2 ^ 22 = i := by
    rw [show (1024 * i + j) * 4096 = 2 ^ 22 * i + j * 4096 by ring,
      Nat.mul_add_div (by norm_num)]
    have h2 : j * 4096 / 2 ^ 22 = 0 := by
      refine Nat.div_eq_of_lt ?_
      have : NPTENTRIES = 1024 := by norm_num [NPTENTRIES]
      omega
    omega
  rw [h1, show (0x3FF : Nat) = 2 ^ 10 - 1 by norm_num,
    Nat.and_pow_two_sub_one_eq_mod]
  refine Nat.mod_eq_of_lt ?_
  have : NPTENTRIES = 2 ^ 10 := by norm_num [NPTENTRIES]
  omega

theorem duppage_cur (st : Sys) (envid pn : Nat) :
    (duppage st envid pn).1.cur = st.cur := by
  by_cases hcow : (st.envs st.cur).pte pn &&& PTE_COW ≠ 0 ∨
      (st.envs st.cur).pte pn &&& PTE_W ≠ 0
  · rw [duppage_pos_eq st envid pn hcow]
    rfl
  · rw [duppage_neg_eq st envid pn hcow]
    rfl

/-- `duppage` preserves which of the parent's PTEs are present, provided
the duplicated page itself is present. -/
theorem duppage_parent_pte_present (st : Sys) (envid pn : Nat)
    (hne : envid ≠ st.cur) (hp : (st.envs st.cur).pte pn &&& PTE_P ≠ 0) (q : Nat) :
    (((duppage st envid pn).1.envs st.cur).pte q &&& PTE_P ≠ 0) ↔
      ((st.envs st.cur).pte q &&& PTE_P ≠ 0) := by
  have hcur : st.cur ≠ envid := fun h => hne h.symm
  by_cases hcow : (st.envs st.cur).pte pn &&& PTE_COW ≠ 0 ∨
      (st.envs st.cur).pte pn &&& PTE_W ≠ 0
  · rw [duppage_pos_eq st envid pn hcow]
    by_cases hq : q = pn
    · subst hq
      have hval : (PTE_P ||| PTE_U ||| PTE_COW) &&& PTE_P ≠ 0 := by decide
      simp [sys_page_map, PGNUM_mul, hcur, hp, hval]
    · simp [sys_page_map, PGNUM_mul, hcur, hq]
  · rw [duppage_neg_eq st envid pn hcow]
    simp [sys_page_map, hcur]

/-- `duppage` preserves which of the parent's PDEs are present, provided
the directory entry covering the duplicated page is present. -/
theorem duppage_parent_pde_present (st : Sys) (envid pn : Nat)
    (hne : envid ≠ st.cur)
    (hd : (st.envs st.cur).pde (PDX (pn * PGSIZE)) &&& PTE_P ≠ 0) (q : Nat) :
    (((duppage st envid pn).1.envs st.cur).pde q &&& PTE_P ≠ 0) ↔
      ((st.envs st.cur).pde q &&& PTE_P ≠ 0) := by
  have hcur : st.cur ≠ envid := fun h => hne h.symm
  by_cases hcow : (st.envs st.cur).pte pn &&& PTE_COW ≠ 0 ∨
      (st.envs st.cur).pte pn &&& PTE_W ≠ 0
  · rw [duppage_pos_eq st envid pn hcow]
    by_cases hq : q = PDX (pn * PGSIZE)
    · subst hq
      simp only [sys_page_map, if_neg hcur]
      simp [or_P_present, hd]
    · simp [sys_page_map, hcur, hq]
  · rw [duppage_neg_eq st envid pn hcow]
    simp [sys_page_map, hcur]

/-- One `duppage` step preserves agreement of the parent's presence
structure with the pre-walk state. -/
theorem duppage_agrees (st0 st : Sys) (envid pn : Nat)
    (hne : envid ≠ st0.cur) (hA : Agrees st0 st)
    (hp : (st.envs st.cur).pte pn &&& PTE_P ≠ 0)
    (hd : (st.envs st.cur).pde (PDX (pn * PGSIZE)) &&& PTE_P ≠ 0) :
    Agrees st0 (duppage st envid pn).1 := by
  obtain ⟨hcur, hpte, hpde⟩ := hA
  have hne2 : envid ≠ st.cur := by rw [hcur]; exact hne
  have hc2 : (duppage st envid pn).1.cur = st.cur := duppage_cur st envid pn
  refine ⟨by rw [hc2, hcur], ?_, ?_⟩
  · intro q
    rw [hc2, duppage_parent_pte_present st envid pn hne2 hp q]
    exact hpte q
  · intro q
    rw [hc2, duppage_parent_pde_present st envid pn hne2 hd q]
    exact hpde q

/-- The inner duplication loop passes to `duppage` exactly the page
numbers the specification's walk describes (computed from the pre-walk
presence structure), and preserves agreement with the pre-walk state. -/
theorem forkInner_spec (st0 : Sys) (envid i : Nat)
    (hne : envid ≠ st0.cur) (hi : i < NPTENTRIES)
    (hd0 : (st0.envs st0.cur).pde i &&& PTE_P ≠ 0) :
    ∀ js, (∀ j ∈ js, j < NPTENTRIES) → ∀ st, Agrees st0 st →
      Agrees st0 (forkInner envid i js st).1 ∧
      (forkInner envid i js st).2.2 = dupSpecInner (st0.envs st0.cur) i js := by
  intro js
  induction js with
  | nil =>
    intro _ st hA
    exact ⟨by simpa [forkInner] using hA, by simp [forkInner, dupSpecInner]⟩
  | cons j rest ih =>
    intro hjs st hA
    have hj : j < NPTENTRIES := hjs j (List.mem_cons_self j rest)
    have hrest : ∀ x ∈ rest, x < NPTENTRIES :=
      fun x hx => hjs x (List.mem_cons_of_mem j hx)
    obtain ⟨hcur, hpte, hpde⟩ := hA
    simp only [forkInner, dupSpecInner]
    by_cases h1 : i <<< 10 ||| j = PGNUM (UXSTACKTOP - PGSIZE)
    · rw [if_pos h1, if_neg (by simp [h1])]
      exact ih hrest st ⟨hcur, hpte, hpde⟩
    · rw [if_neg h1]
      by_cases h2 : (st.envs st.cur).pte (i <<< 10 ||| j) &&& PTE_P ≠ 0
      · rw [if_pos h2]
        have hp0 : (st0.envs st0.cur).pte (i <<< 10 ||| j) &&& PTE_P ≠ 0 :=
          (hpte _).mp h2
        have hd : (st.envs st.cur).pde (PDX ((i <<< 10 ||| j) * PGSIZE))
            &&& PTE_P ≠ 0 := by
          rw [PDX_pg i j hi hj]
          exact (hpde i).mpr hd0
        have hA2 : Agrees st0 (duppage st envid (i <<< 10 ||| j)).1 :=
          duppage_agrees st0 st envid (i <<< 10 ||| j) hne ⟨hcur, hpte, hpde⟩ h2 hd
        have hrec := ih hrest _ hA2
        rw [if_pos ⟨h1, hp0⟩]
        exact ⟨hrec.1, by rw [hrec.2]⟩
      · rw [if_neg h2,
          if_neg (fun hcon => h2 ((hpte _).mpr hcon.2))]
        exact ih hrest st ⟨hcur, hpte, hpde⟩

/-- The outer duplication loop passes to `duppage` exactly the page
numbers the specification's walk describes. -/
theorem forkOuter_spec (st0 : Sys) (envid : Nat) (hne : envid ≠ st0.cur) :
    ∀ idxs, (∀ i ∈ idxs, i < NPTENTRIES) → ∀ st, Agrees st0 st →
      Agrees st0 (forkOuter envid idxs st).1 ∧
      (forkOuter envid idxs st).2.2 = dupSpec (st0.envs st0.cur) idxs := by
  intro idxs
  induction idxs with
  | nil =>
    intro _ st hA
    exact ⟨by simpa [forkOuter] using hA, by simp [forkOuter, dupSpec]⟩
  | cons i rest ih =>
    intro his st hA
    have hi : i < NPTENTRIES := his i (List.mem_cons_self i rest)
    have hrest : ∀ x ∈ rest, x < NPTENTRIES :=
      fun x hx => his x (List.mem_cons_of_mem i hx)
    obtain ⟨hcur, hpte, hpde⟩ := hA
    simp only [forkOuter, dupSpec]
    by_cases h1 : (st.envs st.cur).pde i &&& PTE_P = 0
    · rw [if_pos h1, if_neg (fun h => ((hpde i).mpr h) h1)]
      exact ih hrest st ⟨hcur, hpte, hpde⟩
    · have hd0 : (st0.envs st0.cur).pde i &&& PTE_P ≠ 0 := (hpde i).mp h1
      rw [if_neg h1, if_pos hd0]
      have hinner := forkInner_spec st0 envid i hne hi hd0 (List.range NPTENTRIES)
        (fun x hx => List.mem_range.mp hx) st ⟨hcur, hpte, hpde⟩
      have hrec := ih hrest _ hinner.1
      exact ⟨hrec.1, by rw [hinner.2, hrec.2]⟩

/-- C5: in `fork`'s parent branch the duplication walk passes to `duppage`
exactly the page numbers computed by the specification's walk over the
pre-walk page tables: every directory index below `PDX(UTOP)` whose PDE is
present contributes its present PTEs except the exception-stack page, and
no other page number is passed. -/
theorem C5_duplication_walk (st : Sys) (r : Int) (h0 : 0 < r)
    (hne : r.toNat ≠ st.cur) :
    (forkRes st r).2.2.1 = dupSpec (st.envs st.cur) (List.range (PDX UTOP)) := by
  have h1 : ¬r < 0 := by omega
  have h2 : ¬r = 0 := by omega
  have hA : Agrees (set_pgfault_handler st) (set_pgfault_handler st) :=
    ⟨rfl, fun _ => Iff.rfl, fun _ => Iff.rfl⟩
  have hb : ∀ i ∈ List.range (PDX UTOP), i < NPTENTRIES := by
    intro i hi
    have hm := List.mem_range.mp hi
    have hlt : PDX UTOP ≤ NPTENTRIES := by decide
    omega
  have hmain := forkOuter_spec (set_pgfault_handler st) r.toNat hne
    (List.range (PDX UTOP)) hb (set_pgfault_handler st) hA
  simp only [forkRes, fork, if_neg h1, if_neg h2]
  exact hmain.2

/-- C5 witness: the walk theorem on a concrete parent run. -/
theorem C5_witness :
    (0 : Int) < 5 ∧ (5 : Int).toNat ≠ stW.cur ∧
    (forkRes stW 5).2.2.1 = dupSpec (stW.envs stW.cur) (List.range (PDX UTOP)) :=
  ⟨by decide, by decide, C5_duplication_walk stW 5 (by decide) (by decide)⟩

end Jos
